import Mathlib

/-!
Verification development for the GameVault / Steam Games Search repository:
a shallow embedding of the recommendation and discovery engine together with
the TypeScript presentation layer (Next.js API proxies and discovery grid).

Sources embedded:
- src/FIXES.md: the quoted Python bodies of search_games and
  get_game_recommendations in search.py;
- src/unnamed/part_009: DiscoveryGrid (processGames, handleLike, handleDislike);
- src/unnamed/part_010: Home page (fetchRandomGames, processApiGames);
- src/unnamed/part_011, part_012, part_013: Next.js API proxy routes;
- components of the FastAPI backend that are documented but whose code is not
  in the source tree (Pager, discovery-preferences handler, diverse-recommend)
  are modelled from the specification, as marked on each such definition.
-/

namespace GameVault

/-! ## Raw store hits and the result shape shared by the search functions -/

structure RawHit where
  id : String
  payload : List (String × String)
  score : ℚ
deriving DecidableEq

inductive QdrantError where
  | notExistingId (id : String)
  | wrongInput (msg : String)
deriving DecidableEq

structure RecResult where
  id : String
  payload : List (String × String)
  score : ℚ
deriving DecidableEq

inductive EmbeddingError where
  | unavailable (msg : String)
deriving DecidableEq

/-- Embedding of get_game_recommendations from src/FIXES.md (search.py):
the qdrant.recommend collaborator call is a parameter; the try/except
wrapper catches any collaborator error, prints, and returns the empty list,
otherwise the hits are reshaped into the standardized id/payload/score
dictionaries. -/
def get_game_recommendations
    (recommend : String → Nat → Except QdrantError (List RawHit))
    (game_id : String) (limit : Nat) : List RecResult :=
  match recommend game_id limit with
  | .ok recs => recs.map (fun r => { id := r.id, payload := r.payload, score := r.score })
  | .error _ => []

/-- Embedding of search_games from src/FIXES.md (search.py): the embedder and
qdrant.search collaborators are parameters. The body mirrors the Python:
on embedder failure the surrounding try/except returns the empty list; when
the embedder yields no embeddings the empty vector is substituted
(vector = embeddings[0] if embeddings else []) and the search proceeds; a
search failure is likewise caught and the empty list returned. The
use_hybrid flag is accepted but unused by the quoted body. -/
def search_games
    (embed : String → Except EmbeddingError (List (List ℚ)))
    (qsearch : List ℚ → Nat → Except QdrantError (List RawHit))
    (query_text : String) (limit : Nat) (use_hybrid : Bool) : List RecResult :=
  match embed query_text with
  | .error _ => []
  | .ok embeddings =>
    let vector : List ℚ := match embeddings with
      | [] => []
      | v :: _ => v
    match qsearch vector limit with
    | .ok results => results.map (fun r => { id := r.id, payload := r.payload, score := r.score })
    | .error _ => []

/-- Concrete two-item store used to exercise the search functions. -/
def demoStore : List RawHit :=
  [ { id := "10", payload := [("name", "Counter-Strike")], score := 9 / 10 },
    { id := "20", payload := [("name", "Half-Life")], score := 8 / 10 } ]

/-- Concrete recommend collaborator backed by a store: an id that is not in
the store makes the call fail (the qdrant client raises on a non-existing
id); a known id returns the other items. -/
def demoRecommend (store : List RawHit) : String → Nat → Except QdrantError (List RawHit) :=
  fun gid lim =>
    if store.any (fun it => it.id == gid) then
      .ok ((store.filter (fun it => it.id != gid)).take lim)
    else
      .error (.notExistingId gid)

/-- Concrete embedder that always fails, modelling an unavailable generator. -/
def embedFail : String → Except EmbeddingError (List (List ℚ)) :=
  fun _ => .error (.unavailable "model error")

/-- Concrete search collaborator that succeeds with a fixed ranking. -/
def demoSearchBackend : List ℚ → Nat → Except QdrantError (List RawHit) :=
  fun _ lim => .ok (demoStore.take lim)

/-! ## Pager -/

structure Page (α : Type) where
  items : List α
  total : Nat
  page : Nat
  page_size : Nat
  pages : Nat
deriving DecidableEq

/-- Modelled from the spec: the Pager component of the backend engine is not
in the source tree (src/unnamed/part_001 documents only the paginated
response shape items/total/page/page_size/pages). Per spec section 4.5 the
pager slices the sub-sequence [offset, offset+limit) of the ranked items
client-side and computes the page metadata. -/
def paginate {α : Type} (items : List α) (limit offset : Nat) : Page α :=
  { items := (items.drop offset).take limit
    total := items.length
    page := offset / limit + 1
    page_size := limit
    pages := (items.length + limit - 1) / limit }

/-! ## Result normalizers of the presentation layer -/

structure ApiPayload where
  name : String
  price : Option ℚ
  short_description : Option String
  detailed_description : Option String
  release_date : Option String
  developers : Option String
  genres : Option String
  tags : Option String
  platforms : Option String
  steam_appid : Option Nat
  header_image : Option String
deriving DecidableEq

structure ApiGame where
  id : String
  payload : ApiPayload
  score : ℚ
deriving DecidableEq

structure ProcessedGame where
  id : String
  name : String
  price : ℚ
  short_description : String
  raw_description : String
  detailed_description : Option String
  release_date : String
  developers : String
  genres : String
  tags : String
  relevance : ℚ
  imageUrl : String
  platforms : String
  steam_appid : Option Nat
deriving DecidableEq

/-- Embedding of DiscoveryGrid.processGames (src/unnamed/part_009, one map
entry): JavaScript value-or-default expressions such as
game.payload.price || 0 become Option.getD; detailed_description and
steam_appid are passed through with no default, exactly as in the source. -/
def processGame (g : ApiGame) : ProcessedGame :=
  { id := g.id
    name := g.payload.name
    price := g.payload.price.getD 0
    short_description := g.payload.short_description.getD ""
    raw_description := g.payload.short_description.getD ""
    detailed_description := g.payload.detailed_description
    release_date := g.payload.release_date.getD ""
    developers := g.payload.developers.getD ""
    genres := g.payload.genres.getD ""
    tags := g.payload.tags.getD ""
    relevance := g.score
    imageUrl := g.payload.header_image.getD "/placeholder.jpg"
    platforms := g.payload.platforms.getD ""
    steam_appid := g.payload.steam_appid }

/-- Embedding of DiscoveryGrid.processGames over a list of hits. -/
def processGames (l : List ApiGame) : List ProcessedGame := l.map processGame

structure HomePayload where
  name : String
  price : ℚ
  short_description : String
  detailed_description : Option String
  document : Option String
  release_date : String
  developers : String
  genres : String
  tags : String
  steam_appid : String
  platforms : Option String
deriving DecidableEq

structure HomeApiGame where
  id : String
  score : ℚ
  payload : HomePayload
deriving DecidableEq

structure HomeGame where
  id : String
  name : String
  price : ℚ
  short_description : String
  raw_description : String
  detailed_description : String
  release_date : String
  developers : String
  genres : String
  tags : String
  platforms : String
  relevance : ℚ
  imageUrl : String
deriving DecidableEq

/-- Steam CDN header image URL, templated on a string appid
(src/unnamed/part_010 processApiGames). -/
def steamHeaderUrl (appid : String) : String :=
  "https://cdn.cloudflare.steamstatic.com/steam/apps/" ++ appid ++ "/header.jpg"

/-- Embedding of processApiGames (src/unnamed/part_010, one map entry).
Fields typed as required strings are copied; the optional document,
detailed_description and platforms fall back to the empty string; the
imageUrl is the Steam CDN URL when steam_appid is truthy (a non-empty
string) and the local placeholder otherwise. -/
def processApiGame (g : HomeApiGame) : HomeGame :=
  { id := g.id
    name := g.payload.name
    price := g.payload.price
    short_description := g.payload.short_description
    raw_description := g.payload.document.getD ""
    detailed_description := g.payload.detailed_description.getD ""
    release_date := g.payload.release_date
    developers := g.payload.developers
    genres := g.payload.genres
    tags := g.payload.tags
    platforms := g.payload.platforms.getD ""
    relevance := g.score
    imageUrl := if g.payload.steam_appid != "" then steamHeaderUrl g.payload.steam_appid
                else "/placeholder-game.jpg" }

/-- Embedding of processApiGames over a list of hits. -/
def processApiGames (l : List HomeApiGame) : List HomeGame := l.map processApiGame

/-- Concrete hit whose payload lacks the optional detailed_description. -/
def demoApiGameNoDetail : ApiGame :=
  { id := "730"
    payload := { name := "Counter-Strike 2"
                 price := some 0
                 short_description := some "A tactical shooter."
                 detailed_description := none
                 release_date := some "2023-09-27"
                 developers := some "Valve"
                 genres := some "Action"
                 tags := some "Shooter"
                 platforms := none
                 steam_appid := some 730
                 header_image := none }
    score := 92 / 100 }

/-- Concrete Home-page hit whose payload lacks the optional document field. -/
def demoHomeGameNoDoc : HomeApiGame :=
  { id := "440"
    score := 77 / 100
    payload := { name := "Team Fortress 2"
                 price := 0
                 short_description := "A class-based shooter."
                 detailed_description := none
                 document := none
                 release_date := "2007-10-10"
                 developers := "Valve"
                 genres := "Action"
                 tags := "FPS"
                 steam_appid := "440"
                 platforms := some "windows" } }

/-- Concrete Home-page hit whose steam_appid is the empty string. -/
def demoHomeGameNoAppid : HomeApiGame :=
  { id := "999"
    score := 50 / 100
    payload := { name := "Unknown Game"
                 price := 5
                 short_description := "Mystery."
                 detailed_description := none
                 document := none
                 release_date := ""
                 developers := ""
                 genres := ""
                 tags := ""
                 steam_appid := ""
                 platforms := none } }

/-! ## Proxy routes -/

/-- Steam CDN header image URL templated on a numeric appid
(src/unnamed/part_011 and part_013 post-processing). -/
def headerUrl (appid : Nat) : String :=
  "https://cdn.cloudflare.steamstatic.com/steam/apps/" ++ toString appid ++ "/header.jpg"

/-- Embedding of the header_image post-processing step of the
discovery-preferences and discovery-context proxies (src/unnamed/part_013
lines 73-80 and part_011 lines 58-65): when the payload has a truthy
steam_appid (a non-zero number) the header_image is set to the Steam CDN
URL built from that appid; otherwise the hit passes through unchanged. -/
def addHeaderImage (g : ApiGame) : ApiGame :=
  match g.payload.steam_appid with
  | some n =>
    if n ≠ 0 then
      { g with payload := { g.payload with header_image := some (headerUrl n) } }
    else g
  | none => g

/-- Concrete hit carrying a steam_appid, for the proxy post-processing. -/
def demoApiGameWithAppid : ApiGame :=
  { id := "570"
    payload := { name := "Dota 2"
                 price := some 0
                 short_description := some "A MOBA."
                 detailed_description := some "Long description."
                 release_date := some "2013-07-09"
                 developers := some "Valve"
                 genres := some "Strategy"
                 tags := some "MOBA"
                 platforms := some "windows"
                 steam_appid := some 570
                 header_image := none }
    score := 88 / 100 }

inductive FetchOutcome (α : Type) where
  | success (data : α)
  | httpError (status : Nat) (statusText : String)
  | netError (msg : String)
deriving DecidableEq

structure ProxyResult where
  status : Nat
  items : List RawHit
  errorMsg : Option String
deriving DecidableEq

/-- Embedding of the discover proxy POST handler (src/unnamed/part_012):
the backend is fetched exactly once (the behavior at attempt index 0); a
non-OK response is thrown and, like a network error, caught and turned into
a status-500 error payload carrying no items; a successful response is
forwarded as-is. -/
def discoverProxy (backend : Nat → FetchOutcome (List RawHit)) : ProxyResult :=
  match backend 0 with
  | .success data => { status := 200, items := data, errorMsg := none }
  | .httpError s st =>
    { status := 500, items := []
      errorMsg := some ("Backend returned " ++ toString s ++ ": " ++ st) }
  | .netError m => { status := 500, items := [], errorMsg := some m }

/-- Concrete failing backend behavior: every attempt returns HTTP 502. -/
def demoFailingBackend : Nat → FetchOutcome (List RawHit) :=
  fun _ => .httpError 502 "Bad Gateway"

/-! ## Discovery preference state of the client -/

structure PrefState where
  liked : List String
  disliked : List String
deriving DecidableEq

/-- Embedding of DiscoveryGrid.handleLike (src/unnamed/part_009): the id is
appended to the liked list only when absent, and in that case it is removed
from the disliked list when present there. -/
def handleLikeUpdate (s : PrefState) (gid : String) : PrefState :=
  if s.liked.contains gid then s
  else
    { liked := s.liked ++ [gid]
      disliked :=
        if s.disliked.contains gid then s.disliked.filter (fun x => x ≠ gid)
        else s.disliked }

/-- Embedding of DiscoveryGrid.handleDislike (src/unnamed/part_009), the
symmetric update. -/
def handleDislikeUpdate (s : PrefState) (gid : String) : PrefState :=
  if s.disliked.contains gid then s
  else
    { disliked := s.disliked ++ [gid]
      liked :=
        if s.liked.contains gid then s.liked.filter (fun x => x ≠ gid)
        else s.liked }

/-- The preference-state invariant: both id lists are duplicate-free and
disjoint. -/
def PrefInvariant (s : PrefState) : Prop :=
  s.liked.Nodup ∧ s.disliked.Nodup ∧ ∀ x ∈ s.liked, x ∉ s.disliked

/-! ## Preference discovery: client request, proxy translation, engine -/

structure Item where
  id : String
  payload : List (String × String)
deriving DecidableEq

/-- One step of a linear congruential generator (glibc constants), used to
drive the seeded shuffle. -/
def lcgNext (s : Nat) : Nat := (1103515245 * s + 12345) % 2147483648

/-- Fuel-indexed seeded selection shuffle: at each step the element at index
seed mod length is drawn and the seed advanced, yielding a permutation of
the input that is a pure function of the seed. -/
def seededShuffleGo {α : Type} : Nat → Nat → List α → List α
  | _, 0, _ => []
  | _, _ + 1, [] => []
  | seed, fuel + 1, a :: t =>
    let i := seed % (t.length + 1)
    (a :: t).getD i a :: seededShuffleGo (lcgNext seed) fuel ((a :: t).eraseIdx i)

/-- Seeded shuffle of a list, with fuel equal to its length. -/
def seededShuffle {α : Type} (seed : Nat) (l : List α) : List α :=
  seededShuffleGo seed l.length l

inductive EngineError where
  | unknownItem (id : String)
  | backendUnavailable (msg : String)
deriving DecidableEq

structure PrefRequest where
  positive_ids : List String
  negative_ids : List String
  excluded_ids : List String
  limit : Nat
  randomize : Option Nat
deriving DecidableEq

structure ScoredHit where
  id : String
  score : ℚ
  payload : List (String × String)
deriving DecidableEq

/-- Modelled from the spec: the discovery-preferences endpoint handler of the
FastAPI backend is not in the source tree. Per spec sections 4.2 and 4.3,
the id lists are deduplicated; when both positive and negative lists are
empty the engine substitutes a randomized sample from the collection,
shuffled with the supplied random seed (or with fresh per-call entropy when
no seed was supplied) and each sampled hit carries the default score 1, as
the documented random-games formatting does; otherwise an id missing from
the store is reported as UnknownItemError naming it, and the request is
delegated to the example-based recommend collaborator of the store. -/
def discoverPreferences (store : List Item)
    (recommend : List String → List String → List String → Nat → List ScoredHit)
    (req : PrefRequest) (entropy : Nat) : Except EngineError (List ScoredHit) :=
  let pos := req.positive_ids.dedup
  let neg := req.negative_ids.dedup
  if pos.isEmpty && neg.isEmpty then
    let seed := req.randomize.getD entropy
    .ok (((seededShuffle seed store).take req.limit).map
      (fun it => { id := it.id, score := 1, payload := it.payload }))
  else
    match (pos ++ neg).find? (fun i => !(store.any (fun it => it.id == i))) with
    | some bad => .error (.unknownItem bad)
    | none => .ok (recommend pos neg req.excluded_ids req.limit)

/-- The random seed built by the client (src/unnamed/part_010
fetchRandomGames): the decimal timestamp concatenated with the first four
digits of the random factor, reduced modulo 10^9. -/
def mkRandomSeed (timestamp rand4 : Nat) : Nat :=
  (timestamp * 10000 + rand4 % 10000) % 1000000000

structure ClientDiscoveryBody where
  liked_ids : List String
  disliked_ids : List String
  action : String
  game_id : String
  limit : Nat
  randomize : Nat
deriving DecidableEq

/-- Embedding of the request body built by fetchRandomGames
(src/unnamed/part_010 lines 102-110): both id lists are literally empty and
the randomize field carries the freshly generated seed. -/
def fetchRandomGamesBody (timestamp rand4 : Nat) : ClientDiscoveryBody :=
  { liked_ids := []
    disliked_ids := []
    action := "refresh"
    game_id := ""
    limit := 9
    randomize := mkRandomSeed timestamp rand4 }

/-- Embedding of the discovery-preferences proxy translation
(src/unnamed/part_013): liked_ids become positive_ids, disliked_ids become
negative_ids, their concatenation becomes excluded_ids, and the randomize
value is preserved exactly. -/
def proxyToApiRequest (b : ClientDiscoveryBody) : PrefRequest :=
  { positive_ids := b.liked_ids
    negative_ids := b.disliked_ids
    excluded_ids := b.liked_ids ++ b.disliked_ids
    limit := b.limit
    randomize := some b.randomize }

/-- Concrete three-item store for the discovery witnesses. -/
def demoItemStore : List Item :=
  [ { id := "10", payload := [("name", "Counter-Strike")] },
    { id := "20", payload := [("name", "Half-Life")] },
    { id := "30", payload := [("name", "Portal")] } ]

/-- Concrete recommend collaborator for the discovery witnesses. -/
def demoEngineRecommend : List String → List String → List String → Nat → List ScoredHit :=
  fun _ _ _ _ => []

/-! ## Diverse recommendations -/

structure Cand where
  id : String
  score : ℚ
  genre : String
deriving DecidableEq

structure RankedCand where
  id : String
  score : ℚ
  genre : String
  pen : Bool
  pos : Nat
deriving DecidableEq

/-- Marking pass of the diversity re-rank: each candidate is annotated with
its position in the store ranking and with a penalty flag that is set when
a better-ranked candidate of the same genre exists (the seen list carries
the genres encountered so far). -/
def markAux : Nat → List String → List Cand → List RankedCand
  | _, _, [] => []
  | i, seen, c :: t =>
    { id := c.id, score := c.score, genre := c.genre
      pen := seen.contains c.genre, pos := i } :: markAux (i + 1) (c.genre :: seen) t

/-- Candidates annotated with positions and genre-repeat penalty flags. -/
def markEnum (candidates : List Cand) : List RankedCand := markAux 0 [] candidates

/-- Effective score under diversity factor d: a candidate whose genre is
already represented by a better-ranked candidate is penalized by d. -/
def effScore (d : ℚ) (x : RankedCand) : ℚ := x.score - (if x.pen then d else 0)

/-- Priority order of the diversity re-rank: higher effective score first,
ties broken by the original store position (stable). -/
def rerankLE (d : ℚ) (x y : RankedCand) : Prop :=
  effScore d y < effScore d x ∨ (effScore d x = effScore d y ∧ x.pos ≤ y.pos)

instance (d : ℚ) : DecidableRel (rerankLE d) := fun x y => by
  unfold rerankLE; infer_instance

instance (d : ℚ) : IsTotal RankedCand (rerankLE d) where
  total x y := by
    unfold rerankLE
    rcases lt_trichotomy (effScore d x) (effScore d y) with h | h | h
    · exact Or.inr (Or.inl h)
    · rcases Nat.le_total x.pos y.pos with hp | hp
      · exact Or.inl (Or.inr ⟨h, hp⟩)
      · exact Or.inr (Or.inr ⟨h.symm, hp⟩)
    · exact Or.inl (Or.inl h)

instance (d : ℚ) : IsTrans RankedCand (rerankLE d) where
  trans x y z hxy hyz := by
    unfold rerankLE at *
    rcases hxy with h1 | ⟨h1, p1⟩
    · rcases hyz with h2 | ⟨h2, _⟩
      · exact Or.inl (h2.trans h1)
      · exact Or.inl (h2 ▸ h1)
    · rcases hyz with h2 | ⟨h2, p2⟩
      · exact Or.inl (h1 ▸ h2)
      · exact Or.inr ⟨h1.trans h2, p1.trans p2⟩

/-- Strictly-above relation of the diversity re-rank. -/
def rerankAbove (d : ℚ) (y x : RankedCand) : Prop := ¬ rerankLE d x y

instance (d : ℚ) : DecidableRel (rerankAbove d) := fun x y => by
  unfold rerankAbove; infer_instance

/-- Modelled from the spec: the diverse-recommend re-ranking of the backend
is not in the source tree (src/unnamed/part_017 documents only the endpoint
shape). Per spec section 4.3 it is a deterministic
maximal-marginal-relevance style re-rank: candidates whose genre is already
represented by a better-ranked candidate have their score reduced by the
diversity factor, and the pool is re-sorted stably by the effective score.
Greedily picking the remaining candidate of maximal penalized score is
exactly this stable re-sort, because a genre leader always outranks the
followers of its own genre. -/
def diverseRerank (candidates : List Cand) (d : ℚ) : List RankedCand :=
  List.insertionSort (rerankLE d) (markEnum candidates)

/-- Top-k slice of the diversity re-rank. -/
def diverseTopK (candidates : List Cand) (d : ℚ) (k : Nat) : List RankedCand :=
  (diverseRerank candidates d).take k

/-- Modelled from the spec: the diverse-recommend endpoint handler, which
ignores any per-call entropy — the result is a function of the candidate
pool and the diversity factor alone. -/
def diverseRecommend (candidates : List Cand) (d : ℚ) (k : Nat)
    (entropy : Nat) : List RankedCand :=
  diverseTopK candidates d k

/-- Forgetting the re-rank annotations. -/
def stripRank (x : RankedCand) : Cand := { id := x.id, score := x.score, genre := x.genre }

/-- Number of distinct genres represented in a result list. -/
def numGenres (l : List RankedCand) : Nat := (l.map RankedCand.genre).dedup.length

/-- Scores are non-increasing along the store's natural ranking. -/
def ScoresSorted (candidates : List Cand) : Prop :=
  candidates.Sorted (fun a b => b.score ≤ a.score)

/-- Number of candidates ranked strictly above x at diversity factor d. -/
def countAbove (candidates : List Cand) (d : ℚ) (x : RankedCand) : Nat :=
  (markEnum candidates).countP (fun y => decide (rerankAbove d y x))

/-- Concrete candidate pool (sorted by score) for the diversity witnesses. -/
def demoCands : List Cand :=
  [ { id := "a", score := 10, genre := "Action" },
    { id := "b", score := 9, genre := "Action" },
    { id := "c", score := 8, genre := "Puzzle" },
    { id := "d", score := 1, genre := "Racing" } ]

/-! ## Theorems -/

/-- C2 counterexample: a recommendation request for the id "does-not-exist",
which is not in the store, does not fail with UnknownItemError — the
try/except wrapper of get_game_recommendations swallows the collaborator
error and returns an empty, success-shaped result list. -/
theorem get_game_recommendations_unknown_id_counterexample :
    (demoStore.all fun it => it.id ≠ "does-not-exist") = true ∧
    get_game_recommendations (demoRecommend demoStore) "does-not-exist" 5 = [] := by
  exact ⟨by decide, rfl⟩

/-- C2 (amended): whenever the example-based recommend call of the store
fails — in particular on a request naming an id that is not in the store —
get_game_recommendations catches the error and returns the empty list
instead of surfacing an UnknownItemError. -/
theorem get_game_recommendations_error_yields_empty
    (recommend : String → Nat → Except QdrantError (List RawHit))
    (game_id : String) (limit : Nat) (e : QdrantError)
    (h : recommend game_id limit = .error e) :
    get_game_recommendations recommend game_id limit = [] := by
  unfold get_game_recommendations
  rw [h]

/-- C2 witness: the amended theorem applied to the concrete store and the
concrete unknown id. -/
theorem get_game_recommendations_error_yields_empty_witness :
    get_game_recommendations (demoRecommend demoStore) "does-not-exist" 5 = [] :=
  get_game_recommendations_error_yields_empty (demoRecommend demoStore)
    "does-not-exist" 5 (.notExistingId "does-not-exist") rfl

/-- C3 counterexample: with an embedding generator that errors, search_games
does not fail with EmbeddingUnavailable — its try/except wrapper returns an
ordinary empty result list, indistinguishable from a successful search with
no matches. -/
theorem search_games_embedding_failure_counterexample :
    search_games embedFail demoSearchBackend "dragons" 5 true = [] := rfl

/-- C3 (amended): if the embedding generator errors, search_games catches
the error and returns the empty list rather than failing the whole
operation; and if the generator produces no embeddings, search_games
substitutes the empty vector for the query embedding and proceeds with the
store search. -/
theorem search_games_embedding_failure_yields_empty
    (embed : String → Except EmbeddingError (List (List ℚ)))
    (qsearch : List ℚ → Nat → Except QdrantError (List RawHit))
    (query_text : String) (limit : Nat) (use_hybrid : Bool) :
    (∀ e, embed query_text = .error e →
      search_games embed qsearch query_text limit use_hybrid = []) ∧
    (embed query_text = .ok [] →
      search_games embed qsearch query_text limit use_hybrid =
        match qsearch [] limit with
        | .ok results =>
          results.map (fun r => { id := r.id, payload := r.payload, score := r.score })
        | .error _ => []) := by
  constructor
  · intro e he
    unfold search_games
    rw [he]
  · intro he
    unfold search_games
    rw [he]

/-- C3 witness: the amended theorem applied to the always-failing embedder
and the concrete search collaborator. -/
theorem search_games_embedding_failure_yields_empty_witness :
    search_games embedFail demoSearchBackend "dragons" 5 true = [] :=
  (search_games_embedding_failure_yields_empty embedFail demoSearchBackend
    "dragons" 5 true).1 (.unavailable "model error") rfl

/-- C5: paginate returns exactly the sub-sequence [offset, offset+limit) of
the ranked input in unchanged order, so the page holds at most limit items;
total is the full list length; an offset at or past the total yields an
empty item list (not an error) with total preserved; and on a 10-item list
with limit 5 and offset 12 the page is empty with total 10. -/
theorem paginate_slices_and_preserves_total {α : Type} (items : List α)
    (limit offset : Nat) :
    (paginate items limit offset).items = (items.drop offset).take limit ∧
    (paginate items limit offset).items.length ≤ limit ∧
    (paginate items limit offset).total = items.length ∧
    (items.length ≤ offset → (paginate items limit offset).items = [] ∧
      (paginate items limit offset).total = items.length) ∧
    ((paginate (List.range 10) 5 12).items = [] ∧
      (paginate (List.range 10) 5 12).total = 10) := by
  refine ⟨rfl, ?_, rfl, ?_, by decide, by decide⟩
  · simp [paginate]
  · intro hoff
    refine ⟨?_, rfl⟩
    simp [paginate, List.drop_eq_nil_iff.mpr hoff]

/-- C5 witness: the theorem applied to the concrete 10-item ranked list with
limit 5 and offset 12, discharging the boundary hypothesis there. -/
theorem paginate_slices_and_preserves_total_witness :
    (paginate (List.range 10) 5 12).items = [] ∧
    (paginate (List.range 10) 5 12).total = 10 :=
  (paginate_slices_and_preserves_total (List.range 10) 5 12).2.2.2.1 (by decide)

/-- C6 counterexample: a store hit whose payload lacks the optional
detailed_description keeps that field undefined in the normalized item
produced by processGames — it is not replaced by the empty string, so a
field of the produced item is left undefined. -/
theorem processGames_detailed_description_counterexample :
    (processGames [demoApiGameNoDetail]).map (fun p => p.detailed_description) = [none] ∧
    (none : Option String) ≠ some "" := by
  exact ⟨rfl, by decide⟩

/-- C6 (amended): the result normalizers replace missing optional metadata
fields with explicit defaults — absent price becomes 0, absent short
description and document fields become the empty string, absent platform
info becomes the empty string — and copy the relevance score verbatim from
the store hit; the one exception is that processGames passes
detailed_description (and steam_appid) through unchanged, so that field may
remain undefined. -/
theorem normalizers_default_missing_fields (g : ApiGame) (h : HomeApiGame) :
    ((g.payload.price = none → (processGame g).price = 0) ∧
     (g.payload.short_description = none → (processGame g).short_description = "" ∧
        (processGame g).raw_description = "") ∧
     (g.payload.platforms = none → (processGame g).platforms = "") ∧
     (g.payload.release_date = none → (processGame g).release_date = "") ∧
     (processGame g).relevance = g.score ∧
     (processGame g).detailed_description = g.payload.detailed_description) ∧
    ((h.payload.document = none → (processApiGame h).raw_description = "") ∧
     (h.payload.detailed_description = none → (processApiGame h).detailed_description = "") ∧
     (h.payload.platforms = none → (processApiGame h).platforms = "") ∧
     (processApiGame h).relevance = h.score) := by
  refine ⟨⟨?_, ?_, ?_, ?_, rfl, rfl⟩, ?_, ?_, ?_, rfl⟩ <;>
    intro he <;> simp [processGame, processApiGame, he]

/-- C6 witness: the amended theorem applied to the concrete hits with a
missing platform field and a missing document field. -/
theorem normalizers_default_missing_fields_witness :
    (processGame demoApiGameNoDetail).platforms = "" ∧
    (processApiGame demoHomeGameNoDoc).raw_description = "" :=
  ⟨(normalizers_default_missing_fields demoApiGameNoDetail demoHomeGameNoDoc).1.2.2.1 rfl,
   (normalizers_default_missing_fields demoApiGameNoDetail demoHomeGameNoDoc).2.1 rfl⟩

/-- C7: the discover proxy issues exactly one backend call — its result is a
function of the behavior at attempt index 0 alone, so the call is retried
at most once — and any failure (non-OK response or network error) is
surfaced as a status-500 error payload that carries no items. -/
theorem discover_proxy_single_call_and_error_payload
    (backend backend2 : Nat → FetchOutcome (List RawHit)) :
    (backend 0 = backend2 0 → discoverProxy backend = discoverProxy backend2) ∧
    (∀ s st, backend 0 = .httpError s st →
      (discoverProxy backend).items = [] ∧ (discoverProxy backend).status = 500 ∧
      (discoverProxy backend).errorMsg ≠ none) ∧
    (∀ m, backend 0 = .netError m →
      (discoverProxy backend).items = [] ∧ (discoverProxy backend).status = 500 ∧
      (discoverProxy backend).errorMsg ≠ none) := by
  refine ⟨?_, ?_, ?_⟩
  · intro h
    unfold discoverProxy
    rw [h]
  · intro s st h
    unfold discoverProxy
    rw [h]
    exact ⟨rfl, rfl, by simp⟩
  · intro m h
    unfold discoverProxy
    rw [h]
    exact ⟨rfl, rfl, by simp⟩

/-- C7 witness: the theorem applied to the concrete backend whose every
attempt returns HTTP 502. -/
theorem discover_proxy_single_call_and_error_payload_witness :
    (discoverProxy demoFailingBackend).items = [] ∧
    (discoverProxy demoFailingBackend).status = 500 ∧
    (discoverProxy demoFailingBackend).errorMsg ≠ none :=
  (discover_proxy_single_call_and_error_payload demoFailingBackend
    demoFailingBackend).2.1 502 "Bad Gateway" rfl

/-- C9: when a result item carries a truthy steam_appid, the proxy
post-processing sets header_image to the Steam CDN URL built purely from
that appid, leaving every other part of the hit unchanged; a hit without a
steam_appid passes through entirely unchanged; and the client builds the
display image from steam_appid the same way, falling back to the local
placeholder image when the appid is absent (the empty string). -/
theorem header_image_from_steam_appid (g : ApiGame) (h : HomeApiGame) :
    (∀ n, g.payload.steam_appid = some n → n ≠ 0 →
      (addHeaderImage g).payload.header_image = some (headerUrl n) ∧
      (addHeaderImage g).id = g.id ∧
      (addHeaderImage g).score = g.score ∧
      (addHeaderImage g).payload.name = g.payload.name ∧
      (addHeaderImage g).payload.steam_appid = g.payload.steam_appid) ∧
    (g.payload.steam_appid = none → addHeaderImage g = g) ∧
    (h.payload.steam_appid = "" → (processApiGame h).imageUrl = "/placeholder-game.jpg") ∧
    (h.payload.steam_appid ≠ "" →
      (processApiGame h).imageUrl = steamHeaderUrl h.payload.steam_appid) := by
  refine ⟨?_, ?_, ?_, ?_⟩
  · intro n hn hnz
    simp [addHeaderImage, hn, hnz]
  · intro hn
    simp [addHeaderImage, hn]
  · intro he
    simp [processApiGame, he]
  · intro he
    simp [processApiGame, he]

/-- C9 witness: the theorem applied to the concrete hit with appid 570 and
the concrete client hit with an empty appid. -/
theorem header_image_from_steam_appid_witness :
    (addHeaderImage demoApiGameWithAppid).payload.header_image =
      some (headerUrl 570) ∧
    (processApiGame demoHomeGameNoAppid).imageUrl = "/placeholder-game.jpg" :=
  ⟨((header_image_from_steam_appid demoApiGameWithAppid demoHomeGameNoAppid).1
      570 rfl (by decide)).1,
   (header_image_from_steam_appid demoApiGameWithAppid demoHomeGameNoAppid).2.2.1 rfl⟩

/-- C10: liking a game inserts its id into the liked list only if absent and
removes it from the disliked list, disliking performs the symmetric update,
and both operations preserve the invariant that the two id lists are
duplicate-free and disjoint; the empty initial state satisfies the
invariant, so every preference request built from this state has disjoint
positive and negative id lists. -/
theorem preference_state_disjoint_invariant (s : PrefState) (gid : String)
    (h : PrefInvariant s) :
    PrefInvariant (handleLikeUpdate s gid) ∧
    PrefInvariant (handleDislikeUpdate s gid) ∧
    (∀ x ∈ (handleLikeUpdate s gid).liked, x ∉ (handleLikeUpdate s gid).disliked) ∧
    (∀ x ∈ (handleDislikeUpdate s gid).disliked, x ∉ (handleDislikeUpdate s gid).liked) ∧
    PrefInvariant { liked := [], disliked := [] } := by
  obtain ⟨hl, hd, hdisj⟩ := h
  have hlike : PrefInvariant (handleLikeUpdate s gid) := by
    unfold handleLikeUpdate
    by_cases hmem : s.liked.contains gid
    · simp only [hmem, if_true]
      exact ⟨hl, hd, hdisj⟩
    · simp only [hmem, if_false, Bool.false_eq_true]
      have hgid : gid ∉ s.liked := by simpa using hmem
      refine ⟨?_, ?_, ?_⟩
      · simpa [List.nodup_append] using ⟨hl, hgid⟩
      · by_cases hdm : s.disliked.contains gid
        · simp only [hdm, if_true]
          exact hd.filter _
        · simp only [hdm, if_false, Bool.false_eq_true]
          exact hd
      · intro x hx
        rcases List.mem_append.mp hx with hx | hx
        · by_cases hdm : s.disliked.contains gid
          · simp only [hdm, if_true, List.mem_filter]
            intro ⟨hmem2, _⟩
            exact hdisj x hx hmem2
          · simp only [hdm, if_false, Bool.false_eq_true]
            exact hdisj x hx
        · have hx' : x = gid := by simpa using hx
          subst hx'
          by_cases hdm : s.disliked.contains x
          · simp only [hdm, if_true, List.mem_filter]
            intro ⟨_, hne⟩
            simp at hne
          · simp only [hdm, if_false, Bool.false_eq_true]
            simpa using hdm
  have hdis : PrefInvariant (handleDislikeUpdate s gid) := by
    unfold handleDislikeUpdate
    by_cases hmem : s.disliked.contains gid
    · simp only [hmem, if_true]
      exact ⟨hl, hd, hdisj⟩
    · simp only [hmem, if_false, Bool.false_eq_true]
      have hgid : gid ∉ s.disliked := by simpa using hmem
      refine ⟨?_, ?_, ?_⟩
      · by_cases hlm : s.liked.contains gid
        · simp only [hlm, if_true]
          exact hl.filter _
        · simp only [hlm, if_false, Bool.false_eq_true]
          exact hl
      · simpa [List.nodup_append] using ⟨hd, hgid⟩
      · intro x hx hmem2
        rcases List.mem_append.mp hmem2 with hx2 | hx2
        · by_cases hlm : s.liked.contains gid
          · simp only [hlm, if_true, List.mem_filter] at hx
            exact hdisj x hx.1 hx2
          · simp only [hlm, if_false, Bool.false_eq_true] at hx
            exact hdisj x hx hx2
        · have hx' : x = gid := by simpa using hx2
          subst hx'
          by_cases hlm : s.liked.contains x
          · simp only [hlm, if_true, List.mem_filter] at hx
            simp at hx
          · simp only [hlm, if_false, Bool.false_eq_true] at hx
            have hnot : x ∉ s.liked := by simpa using hlm
            exact hnot hx
  refine ⟨hlike, hdis, ?_, ?_, ?_⟩
  · exact hlike.2.2
  · intro x hx hx2
    exact hdis.2.2 x hx2 hx
  · exact ⟨List.nodup_nil, List.nodup_nil, by simp⟩

/-- C10 witness: the theorem applied to a concrete invariant-satisfying
state: liking "20" moves it out of the disliked list while keeping the two
lists disjoint. -/
theorem preference_state_disjoint_invariant_witness :
    PrefInvariant (handleLikeUpdate { liked := ["10"], disliked := ["20"] } "20") := by
  have hinv : PrefInvariant { liked := ["10"], disliked := ["20"] } := by
    refine ⟨?_, ?_, ?_⟩ <;> decide
  exact (preference_state_disjoint_invariant _ "20" hinv).1

/-- C1: the initial and refresh views of the client issue a request whose
liked and disliked id lists are both literally empty, and on such a request
the engine, given a non-empty store, answers with a non-empty randomized
sample of items instead of an error. -/
theorem discover_empty_preferences_returns_sample (store : List Item)
    (recommend : List String → List String → List String → Nat → List ScoredHit)
    (entropy timestamp rand4 : Nat) (hstore : store ≠ []) :
    (fetchRandomGamesBody timestamp rand4).liked_ids = [] ∧
    (fetchRandomGamesBody timestamp rand4).disliked_ids = [] ∧
    ∃ hits, discoverPreferences store recommend
        (proxyToApiRequest (fetchRandomGamesBody timestamp rand4)) entropy = .ok hits ∧
      hits ≠ [] := by
  refine ⟨rfl, rfl, ?_⟩
  obtain ⟨a, t, rfl⟩ := List.exists_cons_of_ne_nil hstore
  refine ⟨_, rfl, ?_⟩
  obtain ⟨x, xs, hx⟩ :
      ∃ x xs, seededShuffle (mkRandomSeed timestamp rand4) (a :: t) = x :: xs :=
    ⟨_, _, rfl⟩
  simp [discoverPreferences, proxyToApiRequest, fetchRandomGamesBody, hx]

/-- C1 witness: the theorem applied to the concrete non-empty store. -/
theorem discover_empty_preferences_returns_sample_witness :
    ∃ hits, discoverPreferences demoItemStore demoEngineRecommend
        (proxyToApiRequest (fetchRandomGamesBody 1700000000000 1234)) 42 = .ok hits ∧
      hits ≠ [] :=
  (discover_empty_preferences_returns_sample demoItemStore demoEngineRecommend
    42 1700000000000 1234 (by decide)).2.2

/-- C4: two preference-discovery calls with identical empty preference lists,
the same supplied random seed and the same limit return the same item
ordering, whatever fresh entropy each call would otherwise have drawn — the
sample is a deterministic function of the seed; and the client derives the
randomize field it sends from the call timestamp and a fresh random factor
on every call. -/
theorem discover_same_seed_same_ordering (store : List Item)
    (recommend : List String → List String → List String → Nat → List ScoredHit)
    (req1 req2 : PrefRequest) (e1 e2 s timestamp rand4 : Nat)
    (h1p : req1.positive_ids = []) (h1n : req1.negative_ids = [])
    (h2p : req2.positive_ids = []) (h2n : req2.negative_ids = [])
    (hs1 : req1.randomize = some s) (hs2 : req2.randomize = some s)
    (hlim : req1.limit = req2.limit) :
    discoverPreferences store recommend req1 e1 =
      discoverPreferences store recommend req2 e2 ∧
    (fetchRandomGamesBody timestamp rand4).randomize = mkRandomSeed timestamp rand4 := by
  refine ⟨?_, rfl⟩
  unfold discoverPreferences
  rw [h1p, h1n, h2p, h2n, hs1, hs2, hlim]
  simp

/-- C4 witness: the theorem applied to two concrete requests sharing the
seed 777 but carrying different per-call entropy. -/
theorem discover_same_seed_same_ordering_witness :
    discoverPreferences demoItemStore demoEngineRecommend
      { positive_ids := [], negative_ids := [], excluded_ids := []
        limit := 9, randomize := some 777 } 1 =
    discoverPreferences demoItemStore demoEngineRecommend
      { positive_ids := [], negative_ids := [], excluded_ids := ["10"]
        limit := 9, randomize := some 777 } 2 :=
  (discover_same_seed_same_ordering demoItemStore demoEngineRecommend _ _ 1 2 777
    3 4 rfl rfl rfl rfl rfl rfl rfl).1

/-! ### Auxiliary lemmas for the diversity re-rank -/

theorem markAux_map_strip (C : List Cand) : ∀ (i : Nat) (seen : List String),
    (markAux i seen C).map stripRank = C := by
  induction C with
  | nil => intro i seen; rfl
  | cons c t ih =>
    intro i seen
    simp [markAux, stripRank, ih]

theorem markAux_mem_score (C : List Cand) : ∀ (i : Nat) (seen : List String)
    (x : RankedCand), x ∈ markAux i seen C → ∃ c ∈ C, x.score = c.score := by
  induction C with
  | nil => intro i seen x hx; simp [markAux] at hx
  | cons c t ih =>
    intro i seen x hx
    simp only [markAux, List.mem_cons] at hx
    rcases hx with rfl | hx
    · exact ⟨c, List.mem_cons_self c t, rfl⟩
    · obtain ⟨c2, hc2, he⟩ := ih (i + 1) (c.genre :: seen) x hx
      exact ⟨c2, List.mem_cons_of_mem _ hc2, he⟩

theorem markAux_pos_lower (C : List Cand) : ∀ (i : Nat) (seen : List String)
    (x : RankedCand), x ∈ markAux i seen C → i ≤ x.pos := by
  induction C with
  | nil => intro i seen x hx; simp [markAux] at hx
  | cons c t ih =>
    intro i seen x hx
    simp only [markAux, List.mem_cons] at hx
    rcases hx with rfl | hx
    · exact Nat.le_refl i
    · exact Nat.le_of_lt (Nat.lt_of_lt_of_le (Nat.lt_succ_self i)
        (ih (i + 1) (c.genre :: seen) x hx))

theorem markAux_score_pos_pairwise (C : List Cand)
    (hs : C.Pairwise (fun a b => b.score ≤ a.score)) : ∀ (i : Nat) (seen : List String),
    (markAux i seen C).Pairwise (fun x y => y.score ≤ x.score ∧ x.pos < y.pos) := by
  induction C with
  | nil => intro i seen; simp [markAux]
  | cons c t ih =>
    rcases List.pairwise_cons.mp hs with ⟨h1, h2⟩
    intro i seen
    refine List.pairwise_cons.mpr ⟨?_, ih h2 (i + 1) (c.genre :: seen)⟩
    intro y hy
    obtain ⟨c2, hc2, he⟩ := markAux_mem_score t (i + 1) _ y hy
    refine ⟨?_, ?_⟩
    · rw [he]; exact h1 c2 hc2
    · exact Nat.lt_of_lt_of_le (Nat.lt_succ_self i) (markAux_pos_lower t (i + 1) _ y hy)

theorem markAux_pos_pairwise (C : List Cand) : ∀ (i : Nat) (seen : List String),
    (markAux i seen C).Pairwise (fun x y => x.pos < y.pos) := by
  induction C with
  | nil => intro i seen; simp [markAux]
  | cons c t ih =>
    intro i seen
    refine List.pairwise_cons.mpr ⟨?_, ih (i + 1) (c.genre :: seen)⟩
    intro y hy
    exact Nat.lt_of_lt_of_le (Nat.lt_succ_self i) (markAux_pos_lower t (i + 1) _ y hy)

theorem markEnum_pos_nodup (C : List Cand) :
    ((markEnum C).map RankedCand.pos).Nodup := by
  have h : ((markEnum C).map RankedCand.pos).Pairwise (· < ·) :=
    List.pairwise_map.mpr (markAux_pos_pairwise C 0 [])
  exact h.imp Nat.ne_of_lt

theorem markEnum_nodup (C : List Cand) : (markEnum C).Nodup := by
  refine (markAux_pos_pairwise C 0 []).imp ?_
  intro x y hlt he
  rw [he] at hlt
  exact Nat.lt_irrefl _ hlt

theorem markAux_pen_of_seen (C : List Cand) : ∀ (i : Nat) (seen : List String)
    (x : RankedCand), x ∈ markAux i seen C → x.genre ∈ seen → x.pen = true := by
  induction C with
  | nil => intro i seen x hx; simp [markAux] at hx
  | cons c t ih =>
    intro i seen x hx hg
    simp only [markAux, List.mem_cons] at hx
    rcases hx with rfl | hx
    · simpa using hg
    · exact ih (i + 1) (c.genre :: seen) x hx (List.mem_cons_of_mem _ hg)

theorem markAux_leader_genres (C : List Cand) : ∀ (i : Nat) (seen : List String),
    (markAux i seen C).Pairwise
      (fun x y => x.pen = false → y.pen = false → x.genre ≠ y.genre) := by
  induction C with
  | nil => intro i seen; simp [markAux]
  | cons c t ih =>
    intro i seen
    refine List.pairwise_cons.mpr ⟨?_, ih (i + 1) (c.genre :: seen)⟩
    intro y hy _ hyp hgen
    have hmem : y.genre ∈ c.genre :: seen := by
      rw [← hgen]; exact List.mem_cons_self _ _
    have := markAux_pen_of_seen t (i + 1) (c.genre :: seen) y hy hmem
    rw [this] at hyp
    cases hyp

theorem markAux_leader_exists (C : List Cand) : ∀ (i : Nat) (seen : List String),
    C.Pairwise (fun a b => b.score ≤ a.score) →
    ∀ x ∈ markAux i seen C, x.pen = true →
    x.genre ∈ seen ∨ ∃ l0 ∈ markAux i seen C, l0.pen = false ∧ l0.genre = x.genre ∧
      l0.pos < x.pos ∧ x.score ≤ l0.score := by
  induction C with
  | nil => intro i seen _ x hx; simp [markAux] at hx
  | cons c t ih =>
    intro i seen hs x hx hpen
    rcases List.pairwise_cons.mp hs with ⟨h1, h2⟩
    simp only [markAux, List.mem_cons] at hx
    rcases hx with rfl | hx
    · left
      simpa using hpen
    · rcases ih (i + 1) (c.genre :: seen) h2 x hx hpen with
        hseen | ⟨l0, hl0, hp, hg, hpos, hsc⟩
      · rcases List.mem_cons.mp hseen with hg | hseen2
        · by_cases hc : seen.contains c.genre
          · left
            rw [hg]
            simpa using hc
          · right
            refine ⟨{ id := c.id, score := c.score, genre := c.genre
                      pen := seen.contains c.genre, pos := i },
              List.mem_cons_self _ _, ?_, ?_, ?_, ?_⟩
            · simpa using hc
            · exact hg.symm
            · exact Nat.lt_of_lt_of_le (Nat.lt_succ_self i)
                (markAux_pos_lower t (i + 1) _ x hx)
            · obtain ⟨c2, hc2, he⟩ := markAux_mem_score t (i + 1) _ x hx
              rw [he]; exact h1 c2 hc2
        · left; exact hseen2
      · right
        exact ⟨l0, List.mem_cons_of_mem _ hl0, hp, hg, hpos, hsc⟩

theorem markEnum_leader_exists (C : List Cand) (hs : ScoresSorted C)
    (x : RankedCand) (hx : x ∈ markEnum C) (hpen : x.pen = true) :
    ∃ l0 ∈ markEnum C, l0.pen = false ∧ l0.genre = x.genre ∧ l0.pos < x.pos ∧
      x.score ≤ l0.score := by
  rcases markAux_leader_exists C 0 [] hs x hx hpen with h | h
  · simp at h
  · exact h

theorem effScore_zero (x : RankedCand) : effScore 0 x = x.score := by
  unfold effScore
  split <;> simp

theorem rerankAbove_iff (d : ℚ) (y x : RankedCand) :
    rerankAbove d y x ↔ effScore d x < effScore d y ∨
      (effScore d y = effScore d x ∧ y.pos < x.pos) := by
  unfold rerankAbove rerankLE
  constructor
  · intro h
    push_neg at h
    rcases lt_trichotomy (effScore d x) (effScore d y) with hlt | heq | hgt
    · exact Or.inl hlt
    · exact Or.inr ⟨heq.symm, h.2 heq⟩
    · exact absurd hgt (not_lt.mpr h.1)
  · intro h hc
    rcases h with h | ⟨heq, hpos⟩
    · rcases hc with hc | ⟨hc1, _⟩
      · exact absurd (h.trans hc) (lt_irrefl _)
      · rw [hc1] at h; exact absurd h (lt_irrefl _)
    · rcases hc with hc | ⟨_, hc2⟩
      · rw [heq] at hc; exact absurd hc (lt_irrefl _)
      · exact absurd hc2 (Nat.not_le.mpr hpos)

theorem rerankAbove_trans (d : ℚ) {x y z : RankedCand}
    (hzy : rerankAbove d z y) (hyx : rerankAbove d y x) : rerankAbove d z x := by
  intro hle
  rcases IsTotal.total (r := rerankLE d) x y with h | h
  · exact hyx h
  · exact hzy (IsTrans.trans y x z h hle)

theorem leader_rerankAbove (d : ℚ) (hd : 0 ≤ d) {l0 x : RankedCand}
    (hp : l0.pen = false) (hpos : l0.pos < x.pos) (hsc : x.score ≤ l0.score) :
    rerankAbove d l0 x := by
  rw [rerankAbove_iff]
  have hel : effScore d l0 = l0.score := by simp [effScore, hp]
  have hex : effScore d x ≤ x.score := by
    unfold effScore
    split
    · linarith
    · simp
  rcases lt_or_eq_of_le (hex.trans hsc) with h | h
  · exact Or.inl (by rw [hel]; exact h)
  · exact Or.inr ⟨by rw [hel, h], hpos⟩

theorem rerankAbove_antitone (d d2 : ℚ) (hdd : d ≤ d2) {x y : RankedCand}
    (hp : x.pen = false) (h : rerankAbove d2 y x) : rerankAbove d y x := by
  rw [rerankAbove_iff] at h ⊢
  have hex : effScore d x = x.score := by simp [effScore, hp]
  have hex2 : effScore d2 x = x.score := by simp [effScore, hp]
  have hey : effScore d2 y ≤ effScore d y := by
    unfold effScore
    split <;> linarith
  rcases h with h | ⟨heq, hpos⟩
  · exact Or.inl (by rw [hex]; linarith)
  · have hge : effScore d x ≤ effScore d y := by
      rw [hex]
      linarith
    rcases lt_or_eq_of_le hge with h2 | h2
    · exact Or.inl h2
    · exact Or.inr ⟨h2.symm, hpos⟩

theorem mem_take_iff_countAboveP (d : ℚ) :
    ∀ (l : List RankedCand), l.Sorted (rerankLE d) →
    ((l.map RankedCand.pos).Nodup) → ∀ x ∈ l, ∀ (k : Nat),
    (x ∈ l.take k ↔ l.countP (fun y => decide (rerankAbove d y x)) < k) := by
  intro l
  induction l with
  | nil => intro _ _ x hx; simp at hx
  | cons a t ih =>
    intro hs hn x hx k
    rcases List.pairwise_cons.mp hs with ⟨ha, hs2⟩
    rw [List.map_cons, List.nodup_cons] at hn
    obtain ⟨hpa, hn2⟩ := hn
    rcases List.mem_cons.mp hx with rfl | hxt
    · have hcnt : (x :: t).countP (fun y => decide (rerankAbove d y x)) = 0 := by
        rw [List.countP_eq_zero]
        intro y hy
        rcases List.mem_cons.mp hy with rfl | hyt
        · simp only [decide_eq_true_eq]
          intro hab
          exact hab (Or.inr ⟨rfl, Nat.le_refl _⟩)
        · simp only [decide_eq_true_eq]
          intro hab
          exact hab (ha y hyt)
      rw [hcnt]
      cases k with
      | zero => simp
      | succ k => simp [List.take_succ_cons]
    · have hxa : x ≠ a := by
        intro he
        exact hpa (he ▸ List.mem_map_of_mem RankedCand.pos hxt)
      have habove : rerankAbove d a x := by
        intro hle
        rcases ha x hxt with h1 | ⟨h1, p1⟩ <;> rcases hle with h2 | ⟨h2, p2⟩
        · exact absurd (h1.trans h2) (lt_irrefl _)
        · rw [h2] at h1; exact absurd h1 (lt_irrefl _)
        · rw [h1] at h2; exact absurd h2 (lt_irrefl _)
        · exact hpa (Nat.le_antisymm p1 p2 ▸ List.mem_map_of_mem RankedCand.pos hxt)
      have hcnt : (a :: t).countP (fun y => decide (rerankAbove d y x)) =
          t.countP (fun y => decide (rerankAbove d y x)) + 1 :=
        List.countP_cons_of_pos _ _ (decide_eq_true habove)
      rw [hcnt]
      cases k with
      | zero => simp
      | succ k =>
        rw [List.take_succ_cons]
        constructor
        · intro hmem
          rcases List.mem_cons.mp hmem with rfl | hmem2
          · exact absurd rfl hxa
          · exact Nat.succ_lt_succ ((ih hs2 hn2 x hxt k).mp hmem2)
        · intro hlt
          exact List.mem_cons_of_mem _
            ((ih hs2 hn2 x hxt k).mpr (Nat.lt_of_succ_lt_succ hlt))

theorem diverseRerank_sorted (C : List Cand) (d : ℚ) :
    (diverseRerank C d).Sorted (rerankLE d) :=
  List.sorted_insertionSort (rerankLE d) (markEnum C)

theorem diverseRerank_perm (C : List Cand) (d : ℚ) :
    List.Perm (diverseRerank C d) (markEnum C) :=
  List.perm_insertionSort (rerankLE d) (markEnum C)

theorem diverseRerank_nodup (C : List Cand) (d : ℚ) : (diverseRerank C d).Nodup :=
  ((diverseRerank_perm C d).nodup_iff).mpr (markEnum_nodup C)

theorem diverseRerank_pos_nodup (C : List Cand) (d : ℚ) :
    ((diverseRerank C d).map RankedCand.pos).Nodup :=
  (((diverseRerank_perm C d).map RankedCand.pos).nodup_iff).mpr (markEnum_pos_nodup C)

theorem mem_diverseTopK_iff (C : List Cand) (d : ℚ) (k : Nat) (x : RankedCand)
    (hx : x ∈ markEnum C) :
    x ∈ diverseTopK C d k ↔ countAbove C d x < k := by
  have hperm := diverseRerank_perm C d
  have h := mem_take_iff_countAboveP d (diverseRerank C d) (diverseRerank_sorted C d)
    (diverseRerank_pos_nodup C d) x (hperm.mem_iff.mpr hx) k
  unfold diverseTopK countAbove
  rw [← hperm.countP_eq]
  exact h

theorem leader_mem_diverseTopK (C : List Cand) (d : ℚ) (k : Nat)
    (hs : ScoresSorted C) (hd : 0 ≤ d) (x : RankedCand)
    (hx : x ∈ diverseTopK C d k) :
    ∃ l0 ∈ diverseTopK C d k, l0.pen = false ∧ l0.genre = x.genre := by
  have hxl : x ∈ diverseRerank C d := List.take_subset k _ hx
  have hxm : x ∈ markEnum C := (diverseRerank_perm C d).mem_iff.mp hxl
  by_cases hp : x.pen = true
  · obtain ⟨l0, hl0, hp0, hg, hpos, hsc⟩ := markEnum_leader_exists C hs x hxm hp
    have habove : rerankAbove d l0 x := leader_rerankAbove d hd hp0 hpos hsc
    have hcnt : countAbove C d l0 ≤ countAbove C d x := by
      apply List.countP_mono_left
      intro y _ hdy
      exact decide_eq_true (rerankAbove_trans d (of_decide_eq_true hdy) habove)
    have hxk : countAbove C d x < k := (mem_diverseTopK_iff C d k x hxm).mp hx
    exact ⟨l0, (mem_diverseTopK_iff C d k l0 hl0).mpr (Nat.lt_of_le_of_lt hcnt hxk),
      hp0, hg⟩
  · exact ⟨x, hx, by simpa using hp, rfl⟩

theorem numGenres_topK_eq_leader_count (C : List Cand) (d : ℚ) (k : Nat)
    (hs : ScoresSorted C) (hd : 0 ≤ d) :
    numGenres (diverseTopK C d k) =
      ((diverseTopK C d k).filter (fun x => !x.pen)).length := by
  have hsub : (diverseTopK C d k).Sublist (diverseRerank C d) := List.take_sublist k _
  have hpl : (diverseRerank C d).Pairwise
      (fun x y => x.pen = false → y.pen = false → x.genre ≠ y.genre) := by
    refine ((diverseRerank_perm C d).pairwise_iff ?_).mpr (markAux_leader_genres C 0 [])
    intro x y h hy hx he
    exact h hx hy he.symm
  have hp2 : ((diverseTopK C d k).filter (fun x => !x.pen)).Pairwise
      (fun x y => x.genre ≠ y.genre) := by
    have h3 : ((diverseTopK C d k).filter (fun x => !x.pen)).Pairwise
        (fun x y => x.pen = false → y.pen = false → x.genre ≠ y.genre) :=
      List.Pairwise.sublist ((List.filter_sublist _).trans hsub) hpl
    refine h3.imp_of_mem ?_
    intro a b hma hmb hR
    have hpa : a.pen = false := by simpa using (List.mem_filter.mp hma).2
    have hpb : b.pen = false := by simpa using (List.mem_filter.mp hmb).2
    exact hR hpa hpb
  have hset : ((diverseTopK C d k).map RankedCand.genre).toFinset =
      (((diverseTopK C d k).filter (fun x => !x.pen)).map RankedCand.genre).toFinset := by
    ext g
    simp only [List.mem_toFinset, List.mem_map]
    constructor
    · rintro ⟨x, hx, rfl⟩
      obtain ⟨l0, hl0, hp0, hg0⟩ := leader_mem_diverseTopK C d k hs hd x hx
      exact ⟨l0, List.mem_filter.mpr ⟨hl0, by simp [hp0]⟩, hg0⟩
    · rintro ⟨x, hx, rfl⟩
      exact ⟨x, (List.mem_filter.mp hx).1, rfl⟩
  have hnd2 : (((diverseTopK C d k).filter (fun x => !x.pen)).map RankedCand.genre).Nodup :=
    List.pairwise_map.mpr hp2
  unfold numGenres
  calc ((diverseTopK C d k).map RankedCand.genre).dedup.length
      = ((diverseTopK C d k).map RankedCand.genre).toFinset.card :=
        (List.card_toFinset _).symm
    _ = (((diverseTopK C d k).filter (fun x => !x.pen)).map
          RankedCand.genre).toFinset.card := by rw [hset]
    _ = (((diverseTopK C d k).filter (fun x => !x.pen)).map
          RankedCand.genre).dedup.length := List.card_toFinset _
    _ = (((diverseTopK C d k).filter (fun x => !x.pen)).map
          RankedCand.genre).length := by rw [List.dedup_eq_self.mpr hnd2]
    _ = ((diverseTopK C d k).filter (fun x => !x.pen)).length := List.length_map _ _

theorem countP_append_mem_left {α : Type} [DecidableEq α] (l₁ l₂ : List α)
    (hnd : (l₁ ++ l₂).Nodup) (q : α → Bool) :
    (l₁ ++ l₂).countP (fun x => q x && decide (x ∈ l₁)) = l₁.countP q := by
  rw [List.countP_append]
  have hdisj := List.disjoint_of_nodup_append hnd
  have hA : l₁.countP (fun x => q x && decide (x ∈ l₁)) = l₁.countP q :=
    List.countP_congr (fun x hx => by simp [hx])
  have hB : l₂.countP (fun x => q x && decide (x ∈ l₁)) = 0 := by
    rw [List.countP_eq_zero]
    intro x hx
    have hnot : x ∉ l₁ := fun hmem => hdisj hmem hx
    simp [hnot]
  rw [hA, hB, Nat.add_zero]

theorem leader_count_eq_countP (C : List Cand) (d : ℚ) (k : Nat) :
    ((diverseTopK C d k).filter (fun x => !x.pen)).length =
      (markEnum C).countP (fun x => !x.pen && decide (countAbove C d x < k)) := by
  have hperm := diverseRerank_perm C d
  have hnodup := diverseRerank_nodup C d
  have hsplit := List.take_append_drop k (diverseRerank C d)
  have hstep1 : ((diverseRerank C d).take k).countP (fun x => !x.pen) =
      (diverseRerank C d).countP
        (fun x => !x.pen && decide (x ∈ (diverseRerank C d).take k)) := by
    have h := countP_append_mem_left ((diverseRerank C d).take k)
      ((diverseRerank C d).drop k) (by rw [hsplit]; exact hnodup) (fun x => !x.pen)
    rw [hsplit] at h
    exact h.symm
  have hstep2 : (diverseRerank C d).countP
      (fun x => !x.pen && decide (x ∈ (diverseRerank C d).take k)) =
      (diverseRerank C d).countP
        (fun x => !x.pen && decide (countAbove C d x < k)) := by
    apply List.countP_congr
    intro x hxm
    have hxe : x ∈ markEnum C := hperm.mem_iff.mp hxm
    have hiff := mem_diverseTopK_iff C d k x hxe
    simp only [Bool.and_eq_true, decide_eq_true_eq]
    constructor
    · rintro ⟨h1, h2⟩
      exact ⟨h1, hiff.mp h2⟩
    · rintro ⟨h1, h2⟩
      exact ⟨h1, hiff.mpr h2⟩
  rw [← List.countP_eq_length_filter]
  calc ((diverseTopK C d k).countP (fun x => !x.pen))
      = (diverseRerank C d).countP
          (fun x => !x.pen && decide (x ∈ (diverseRerank C d).take k)) := hstep1
    _ = (diverseRerank C d).countP (fun x => !x.pen && decide (countAbove C d x < k)) :=
        hstep2
    _ = (markEnum C).countP (fun x => !x.pen && decide (countAbove C d x < k)) :=
        hperm.countP_eq _

theorem leader_countP_mono (C : List Cand) (d d2 : ℚ) (k : Nat) (hdd : d ≤ d2) :
    (markEnum C).countP (fun x => !x.pen && decide (countAbove C d x < k)) ≤
      (markEnum C).countP (fun x => !x.pen && decide (countAbove C d2 x < k)) := by
  apply List.countP_mono_left
  intro x _ h
  rw [Bool.and_eq_true, decide_eq_true_eq] at h
  obtain ⟨h1, h2⟩ := h
  have hp : x.pen = false := by simpa using h1
  have hmono : countAbove C d2 x ≤ countAbove C d x := by
    apply List.countP_mono_left
    intro y _ hdy
    exact decide_eq_true (rerankAbove_antitone d d2 hdd hp (of_decide_eq_true hdy))
  rw [Bool.and_eq_true, decide_eq_true_eq]
  exact ⟨h1, Nat.lt_of_le_of_lt hmono h2⟩

theorem diverseRerank_zero (C : List Cand) (hs : ScoresSorted C) :
    (diverseRerank C 0).map stripRank = C := by
  have hp : (markEnum C).Pairwise (fun x y => y.score ≤ x.score ∧ x.pos < y.pos) :=
    markAux_score_pos_pairwise C hs 0 []
  have hsorted : (markEnum C).Sorted (rerankLE 0) := by
    refine hp.imp ?_
    intro x y hxy
    obtain ⟨hsc, hpos⟩ := hxy
    rcases lt_or_eq_of_le hsc with h | h
    · exact Or.inl (by rw [effScore_zero, effScore_zero]; exact h)
    · exact Or.inr ⟨by rw [effScore_zero, effScore_zero, h], Nat.le_of_lt hpos⟩
  rw [diverseRerank, List.Sorted.insertionSort_eq hsorted]
  exact markAux_map_strip C 0 []

/-- C8: the diversity re-ranking is a deterministic function of the pair of
candidate pool and diversity factor (per-call entropy never influences the
result); at diversity factor 0 it reproduces the store's natural
preference-ranking order exactly; and for a fixed candidate pool, moving
from a diversity factor d to any larger factor d2 cannot decrease the
number of distinct genres represented in the top-k results. -/
theorem diverse_rerank_deterministic_zero_identity_genre_monotone
    (candidates : List Cand) (d d2 : ℚ) (k e1 e2 : Nat)
    (hsorted : ScoresSorted candidates) (hd0 : 0 ≤ d) (hdd : d ≤ d2) :
    diverseRecommend candidates d k e1 = diverseRecommend candidates d k e2 ∧
    (diverseRerank candidates 0).map stripRank = candidates ∧
    numGenres (diverseTopK candidates d k) ≤ numGenres (diverseTopK candidates d2 k) := by
  refine ⟨rfl, diverseRerank_zero candidates hsorted, ?_⟩
  rw [numGenres_topK_eq_leader_count candidates d k hsorted hd0,
    numGenres_topK_eq_leader_count candidates d2 k hsorted (hd0.trans hdd),
    leader_count_eq_countP, leader_count_eq_countP]
  exact leader_countP_mono candidates d d2 k hdd

/-- C8 witness: the theorem applied to the concrete four-candidate pool with
three genres, diversity factors one half and one, and top-3 slices. -/
theorem diverse_rerank_deterministic_zero_identity_genre_monotone_witness :
    (diverseRerank demoCands 0).map stripRank = demoCands ∧
    numGenres (diverseTopK demoCands (1 / 2) 3) ≤ numGenres (diverseTopK demoCands 1 3) := by
  have hs : ScoresSorted demoCands := by
    refine List.pairwise_cons.mpr ⟨?_, ?_⟩
    · intro b hb
      fin_cases hb <;> norm_num
    refine List.pairwise_cons.mpr ⟨?_, ?_⟩
    · intro b hb
      fin_cases hb <;> norm_num
    refine List.pairwise_cons.mpr ⟨?_, ?_⟩
    · intro b hb
      fin_cases hb <;> norm_num
    simp
  have h := diverse_rerank_deterministic_zero_identity_genre_monotone demoCands
    (1 / 2) 1 3 0 0 hs (by norm_num) (by norm_num)
  exact ⟨h.2.1, h.2.2⟩

end GameVault
